import Mathlib

/-!
Verification development for the employee-data ELT script
(csds397_ia2_create_database.py).

The script's value-level behaviour is embedded shallowly:

* a pandas DataFrame row of the staging table is a `Row` of optional
  fields (SQL NULL / NaN / None is `Option.none`);
* the column-level (schema) behaviour of `clean_data` and `profile_data`
  is embedded separately on lists of column names, since pandas frames
  carry their columns dynamically;
* the external date parser `pd.to_datetime` (a pandas library routine,
  not code of this repository) is a parameter
  `parse : String → Option Date`; `errors ='coerce'` means an
  unparseable or missing value yields `none` (NaT);
* Python string routines (`str.strip`, `str.title`, `str.upper`,
  the regex `\s+` removal) are modelled on ASCII character data, which
  covers every value the script manipulates;
* `astype(str)` renders a missing value (Python `None` in an object
  column coming from the MySQL driver) as the string "None".
-/

/-! ## ASCII character primitives (model of Python str case/space tests) -/

/-- Uppercase an ASCII letter, as Python str.upper does on ASCII data. -/
def upChar (c : Char) : Char :=
  if 97 ≤ c.toNat ∧ c.toNat ≤ 122 then Char.ofNat (c.toNat - 32) else c

/-- Lowercase an ASCII letter, as Python str.lower does on ASCII data. -/
def lowChar (c : Char) : Char :=
  if 65 ≤ c.toNat ∧ c.toNat ≤ 90 then Char.ofNat (c.toNat + 32) else c

/-- Whitespace test: space, tab, LF, VT, FF, CR — the characters both
Python str.strip and the regex class \s remove from ASCII text. -/
def isSpaceB (c : Char) : Bool :=
  decide (c.toNat = 32 ∨ (9 ≤ c.toNat ∧ c.toNat ≤ 13))

/-- ASCII letter test (the cased characters of Python str.title on ASCII). -/
def isAlphaB (c : Char) : Bool :=
  decide ((65 ≤ c.toNat ∧ c.toNat ≤ 90) ∨ (97 ≤ c.toNat ∧ c.toNat ≤ 122))

/-! ## String operations used by clean_data (lines 177, 180-181, 214) -/

/-- Model of Python str.strip(): drop whitespace at both ends. -/
def stripStr (s : String) : String :=
  ⟨(((s.data.dropWhile isSpaceB).reverse.dropWhile isSpaceB)).reverse⟩

/-- Model of .str.replace(r'\s+', '', regex=True): remove all whitespace. -/
def removeWsStr (s : String) : String :=
  ⟨s.data.filter (fun c => !isSpaceB c)⟩

/-- Model of .str.upper() on ASCII data. -/
def upperStr (s : String) : String :=
  ⟨s.data.map upChar⟩

/-- Title-case core: an alphabetic character is uppercased when the
previous character was not alphabetic and lowercased otherwise, exactly
Python str.title on ASCII data.  The Boolean argument records whether
the previous character was alphabetic. -/
def titleAux : Bool → List Char → List Char
  | _, [] => []
  | prev, c :: cs =>
    if isAlphaB c then
      (if prev then lowChar c else upChar c) :: titleAux true cs
    else
      c :: titleAux false cs

/-- Model of .str.title() on ASCII data. -/
def titleStr (s : String) : String :=
  ⟨titleAux false s.data⟩

/-- Model of .astype(str) on an object column: a present string is kept,
a missing value (Python None from the MySQL driver) renders as "None". -/
def astypeStr : Option String → String
  | some s => s
  | none => "None"

/-! ## Dates (model of pd.to_datetime + .dt.strftime("%Y-%m-%d")) -/

/-- A calendar date as pandas holds it after parsing. -/
structure Date where
  year : Nat
  month : Nat
  day : Nat
deriving DecidableEq, Repr

/-- Plausibility bounds on a parsed date.  pandas Timestamps lie between
the years 1677 and 2262, so every value pd.to_datetime produces
satisfies these (generous) bounds. -/
def validDate (d : Date) : Bool :=
  decide (1000 ≤ d.year ∧ d.year ≤ 9999 ∧ 1 ≤ d.month ∧ d.month ≤ 12 ∧
          1 ≤ d.day ∧ d.day ≤ 31)

/-- Decimal digit character. -/
def digitChar (n : Nat) : Char := Char.ofNat (48 + n)

/-- Model of .dt.strftime("%Y-%m-%d"): four-digit year, two-digit month
and day, zero padded, separated by dashes. -/
def formatDate (d : Date) : String :=
  ⟨[digitChar (d.year / 1000 % 10), digitChar (d.year / 100 % 10),
    digitChar (d.year / 10 % 10), digitChar (d.year % 10), '-',
    digitChar (d.month / 10 % 10), digitChar (d.month % 10), '-',
    digitChar (d.day / 10 % 10), digitChar (d.day % 10)]⟩

/-- The fixed fallback date of clean_data line 163. -/
def epoch : Date := ⟨1900, 1, 1⟩

/-- Checker for the spec's pattern YYYY-MM-DD: ten characters, digits in
the year/month/day positions, dashes at positions 4 and 7. -/
def matchesISO (s : String) : Bool :=
  match s.data with
  | [y1, y2, y3, y4, h1, m1, m2, h2, d1, d2] =>
    y1.isDigit && y2.isDigit && y3.isDigit && y4.isDigit &&
    decide (h1 = '-') && m1.isDigit && m2.isDigit &&
    decide (h2 = '-') && d1.isDigit && d2.isDigit
  | _ => false

/-- The date clean_data assigns to a row: the parse of the raw string
when it succeeds, the epoch when the value is missing or unparseable
(lines 162-163: errors ='coerce' then filling NaT with 1900-01-01). -/
def dojDate (parse : String → Option Date) : Option String → Date
  | none => epoch
  | some s => (parse s).getD epoch

/-! ## The department canonicalisation map (clean_data lines 184-207) -/

/-- The literal dept_mapping dictionary of clean_data. -/
def dept_mapping : List (String × String) :=
  [("OPERATIONS", "OPERATIONS"),
   ("OPRATIONS", "OPERATIONS"),
   ("CUSTOMERSUPPORT", "CUSTOMER SUPPORT"),
   ("CUSTSUPPORT", "CUSTOMER SUPPORT"),
   ("HR", "HR"),
   ("IT", "IT"),
   ("LOGISTICS", "LOGISTICS"),
   ("LOGSTICS", "LOGISTICS"),
   ("LEGAL", "LEGAL"),
   ("LEGL", "LEGAL"),
   ("MARKETING", "MARKETING"),
   ("MARKNG", "MARKETING"),
   ("MARKTING", "MARKETING"),
   ("SALES", "SALES"),
   ("FINANCE", "FINANCE"),
   ("FIN", "FINANCE"),
   ("FINANACE", "FINANCE"),
   ("R&D", "R&D"),
   ("RND", "R&D"),
   ("RESEARCH", "R&D"),
   ("SUPPORT", "CUSTOMER SUPPORT"),
   ("HUMANRESOURCES", "HR")]

/-- Exact-key lookup in an association list (Python dict lookup as used
by Series.map). -/
def lookupStr : List (String × String) → String → Option String
  | [], _ => none
  | p :: ps, k => if p.1 = k then some p.2 else lookupStr ps k

/-- Model of .map(dept_mapping).fillna(original): a mapped key becomes
its canonical label, an unmapped value passes through unchanged. -/
def canonApply (x : String) : String :=
  (lookupStr dept_mapping x).getD x

/-! ## Rows of the staging table (value-level model) -/

/-- One row of the employee_data_source table as pandas sees it: every
field optional, a SQL NULL being none.  The staging surrogate id column
is tracked by the separate column-level model below, since clean_data
never reads or writes it. -/
structure Row where
  Employee_ID : Option Int
  Name : Option String
  Age : Option Int
  Department : Option String
  Date_of_Joining : Option String
  Years_of_Experience : Option Int
  Country : Option String
  Salary : Option Int
  Performance_Rating : Option String
deriving DecidableEq, Repr

/-- Step 1 of clean_data (lines 156-159): fillna with column-specific
defaults for Name, Performance_Rating, Country, Years_of_Experience. -/
def fillMissing (r : Row) : Row :=
  { r with
    Name := some (r.Name.getD "Unknown"),
    Performance_Rating := some (r.Performance_Rating.getD "Unknown"),
    Country := some (r.Country.getD "Unknown"),
    Years_of_Experience := some (r.Years_of_Experience.getD (-1)) }

/-- Step 2 of clean_data (lines 162-165): parse the date with coercion,
fill failures with 1900-01-01, re-emit as YYYY-MM-DD text. -/
def fixDate (parse : String → Option Date) (r : Row) : Row :=
  { r with Date_of_Joining := some (formatDate (dojDate parse r.Date_of_Joining)) }

/-- Core of drop_duplicates(subset=[id_column], keep="first"): walk the
rows in order keeping a row only when its Employee_ID value has not been
seen (pandas treats missing keys as equal to each other). -/
def dedupKeep : List (Option Int) → List Row → List Row
  | _, [] => []
  | seen, r :: rs =>
    if r.Employee_ID ∈ seen then dedupKeep seen rs
    else r :: dedupKeep (r.Employee_ID :: seen) rs

/-- Step 3 of clean_data (line 170): deduplicate by the identifier
column only, keeping the first occurrence in row order. -/
def drop_duplicates (l : List Row) : List Row := dedupKeep [] l

/-- Step 4 of clean_data (lines 177-214): text normalisation of Name,
Department (whitespace removal, uppercasing, canonicalisation map with
passthrough) and Country. -/
def textNorm (r : Row) : Row :=
  { r with
    Name := some (titleStr (stripStr (astypeStr r.Name))),
    Department := some (canonApply (upperStr (removeWsStr (astypeStr r.Department)))),
    Country := some (titleStr (stripStr (astypeStr r.Country))) }

/-- clean_data (lines 144-216) on the rows of the staging table: fill
missing values, standardise dates, deduplicate by identifier, normalise
text, in that order. -/
def clean_data (parse : String → Option Date) (t : List Row) : List Row :=
  (drop_duplicates ((t.map fillMissing).map (fixDate parse))).map textNorm

/-- The complete per-row transformation a surviving row undergoes. -/
def cleanRow (parse : String → Option Date) (r : Row) : Row :=
  textNorm (fixDate parse (fillMissing r))

/-- Reference rendering of the deduplication rule as the spec words it:
keep the first occurrence, discard every later row with the same
identifier value, the identifier alone being the grouping key. -/
def firstOccs : List Row → List Row
  | [] => []
  | r :: rs =>
    r :: firstOccs (rs.filter (fun x => decide (x.Employee_ID ≠ r.Employee_ID)))
termination_by l => l.length
decreasing_by
  simp only [List.length_cons]
  exact Nat.lt_succ_of_le (List.length_filter_le _ _)

/-! ## Column-level (schema) model

A pandas DataFrame also carries a list of column names.  clean_data and
profile_data act on it through two primitives: assigning df[c] appends
the column c when absent and overwrites it in place when present, and
df.drop(columns=[c]) removes it. -/

/-- Effect of the assignment df[c] = ... on the column-name list. -/
def setColName (cols : List String) (c : String) : List String :=
  if c ∈ cols then cols else cols ++ [c]

/-- Effect of df.drop(columns=[c]) on the column-name list. -/
def dropColName (cols : List String) (c : String) : List String :=
  cols.filter (fun x => decide (x ≠ c))

/-- Effect of clean_data (lines 144-216) on the column-name list: the
column assignments of steps 1, 2 and 4 in source order, including the
creation and removal of the working column Date_Parsed; deduplication
(line 170) does not touch the columns, and the final Country assignment
(lines 213-214) is guarded by membership. -/
def clean_data_cols (cols : List String) : List String :=
  let c1 := setColName cols "Name"
  let c2 := setColName c1 "Performance_Rating"
  let c3 := setColName c2 "Country"
  let c4 := setColName c3 "Years_of_Experience"
  let c5 := setColName c4 "Date_Parsed"
  let c6 := setColName c5 "Date_of_Joining"
  let c7 := dropColName c6 "Date_Parsed"
  let c8 := setColName c7 "Name"
  let c9 := setColName c8 "Department"
  let c10 := setColName c9 "Department"
  if "Country" ∈ c10 then setColName c10 "Country" else c10

/-- Columns of the staging table employee_data_source in schema order
(setup_database lines 14-25): the surrogate id then the nine raw
columns.  load_data_from_db does SELECT *, so this is exactly what
clean_data receives. -/
def stagingCols : List String :=
  ["id", "Employee_ID", "Name", "Age", "Department", "Date_of_Joining",
   "Years_of_Experience", "Country", "Salary", "Performance_Rating"]

/-- Columns of the canonical employee_data table in schema order
(setup_database lines 29-39), the Canonical Record schema. -/
def canonicalCols : List String :=
  ["Employee_ID", "Name", "Age", "Department", "Date_of_Joining",
   "Years_of_Experience", "Country", "Salary", "Performance_Rating"]

/-- Identifier-column resolution used at lines 116, 168 and 246: prefer
the spelling "Employee Id" when present, fall back to "Employee_ID". -/
def id_column (cols : List String) : String :=
  if "Employee Id" ∈ cols then "Employee Id" else "Employee_ID"

/-- The projection load_clean_data_to_final_table applies at insert time
(line 261): it selects exactly these columns of the cleaned frame, in
this order. -/
def final_select_cols (cols : List String) : List String :=
  [id_column cols, "Name", "Age", "Department", "Date_of_Joining",
   "Years_of_Experience", "Country", "Salary", "Performance_Rating"]

/-! ## profile_data (lines 90-141): the frame-effect model

profile_data only prints, except for two statements touching its
argument: line 127 assigns the working column Parsed_Date and line 134
drops it again.  The table is modelled as named columns of values; the
parsed dates the assignment stores are irrelevant to the frame effect
and enter as a parameter. -/

/-- Assignment df[c] = vals on a table of named columns: overwrite in
place when the name exists, append otherwise. -/
def setColTable {α : Type} (t : List (String × List α)) (c : String) (vals : List α) :
    List (String × List α) :=
  if t.any (fun p => decide (p.1 = c)) then
    t.map (fun p => if p.1 = c then (c, vals) else p)
  else t ++ [(c, vals)]

/-- df.drop(columns=[c], inplace=True) on a table of named columns. -/
def dropColTable {α : Type} (t : List (String × List α)) (c : String) :
    List (String × List α) :=
  t.filter (fun p => decide (p.1 ≠ c))

/-- Net effect of profile_data on the frame passed to it: add the
working column Parsed_Date (line 127), drop it again (line 134).  Every
other statement of the function reads or prints only. -/
def profile_data {α : Type} (t : List (String × List α)) (parsedVals : List α) :
    List (String × List α) :=
  dropColTable (setColTable t "Parsed_Date" parsedVals) "Parsed_Date"

/-! ## load_clean_data_to_final_table: the insert step (lines 270-275) -/

/-- Observable outcome of the guarded bulk insert: whether commit ran,
what was printed, and what exception left the function. -/
structure InsertOutcome where
  committed : Bool
  message : String
  raised : Option String
deriving DecidableEq, Repr

/-- The try/except around cursor.executemany + db.commit at lines
270-275: on success the batch commits and a success line prints; on any
exception (a duplicate-key violation included) the commit is skipped, a
diagnostic naming the error prints, and no exception propagates — the
function falls through to validation and export. -/
def insert_clean_step (res : Except String Unit) : InsertOutcome :=
  match res with
  | Except.ok _ =>
    ⟨true, "Clean data inserted into employee_data table successfully!", none⟩
  | Except.error e =>
    ⟨false, "An error occurred when inserting clean data: " ++ e, none⟩

/-! ## A concrete ISO date parser

pd.to_datetime itself is pandas library code, not code of this
repository; the theorems abstract it as a parameter constrained to
produce plausible dates and to accept its own ISO output.  parseISO is a
concrete instance of that interface used by the witnesses: it accepts
exactly the strings YYYY-MM-DD denoting a plausible date. -/

/-- Numeric value of a digit character. -/
def digitVal (c : Char) : Nat := c.toNat - 48

/-- Strict ISO YYYY-MM-DD parser; a concrete stand-in for pd.to_datetime
in witnesses. -/
def parseISO (s : String) : Option Date :=
  match s.data with
  | [y1, y2, y3, y4, h1, m1, m2, h2, d1, d2] =>
    if y1.isDigit && y2.isDigit && y3.isDigit && y4.isDigit &&
       decide (h1 = '-') && m1.isDigit && m2.isDigit &&
       decide (h2 = '-') && d1.isDigit && d2.isDigit then
      if validDate ⟨1000 * digitVal y1 + 100 * digitVal y2 + 10 * digitVal y3 + digitVal y4,
                    10 * digitVal m1 + digitVal m2,
                    10 * digitVal d1 + digitVal d2⟩ then
        some ⟨1000 * digitVal y1 + 100 * digitVal y2 + 10 * digitVal y3 + digitVal y4,
              10 * digitVal m1 + digitVal m2,
              10 * digitVal d1 + digitVal d2⟩
      else none
    else none
  | _ => none

/-! ## Concrete fixtures for witnesses and counterexamples -/

/-- A raw row with a present, parseable date and a misspelt department. -/
def exRowFull : Row :=
  { Employee_ID := some 2, Name := some "  jane ", Age := some 28,
    Department := some " oprations ", Date_of_Joining := some "2022-01-13",
    Years_of_Experience := none, Country := none, Salary := some 40000,
    Performance_Rating := none }

/-- A raw row with Name, Performance_Rating, Country and
Years_of_Experience all missing. -/
def exRowNulls : Row :=
  { Employee_ID := some 1, Name := none, Age := some 30,
    Department := some "Marketing", Date_of_Joining := none,
    Years_of_Experience := none, Country := none, Salary := some 50000,
    Performance_Rating := none }

/-- A raw row with a missing Department. -/
def exRowNullDept : Row :=
  { Employee_ID := some 3, Name := some "John Doe", Age := some 30,
    Department := none, Date_of_Joining := some "2022-01-13",
    Years_of_Experience := some 5, Country := some "USA",
    Salary := some 50000, Performance_Rating := some "Good" }

/-- A raw row duplicating the identifier of exRowNulls with different
attribute values. -/
def exRowDup : Row :=
  { Employee_ID := some 1, Name := some "John Doe", Age := some 30,
    Department := some "MARKNG", Date_of_Joining := some "2021-05-07",
    Years_of_Experience := some 5, Country := some "usa",
    Salary := some 50000, Performance_Rating := some "Good" }

/-- A small staging extract exercising deduplication and every default. -/
def exTable : List Row := [exRowNulls, exRowDup, exRowFull]

/-- A two-column table with raw staging names. -/
def exColsTable : List (String × List Nat) :=
  [("Employee_ID", [1, 2]), ("Date_of_Joining", [7, 8])]

/-! ## Character-level lemmas -/

theorem charOfNat_toNat : ∀ m, m < 128 → (Char.ofNat m).toNat = m := by decide

theorem upChar_eq_of_neg {c : Char} (h : ¬ (97 ≤ c.toNat ∧ c.toNat ≤ 122)) :
    upChar c = c := by
  unfold upChar
  rw [if_neg h]

theorem toNat_upChar_pos {c : Char} (h : 97 ≤ c.toNat ∧ c.toNat ≤ 122) :
    (upChar c).toNat = c.toNat - 32 := by
  unfold upChar
  rw [if_pos h]
  exact charOfNat_toNat _ (by omega)

theorem lowChar_eq_of_neg {c : Char} (h : ¬ (65 ≤ c.toNat ∧ c.toNat ≤ 90)) :
    lowChar c = c := by
  unfold lowChar
  rw [if_neg h]

theorem toNat_lowChar_pos {c : Char} (h : 65 ≤ c.toNat ∧ c.toNat ≤ 90) :
    (lowChar c).toNat = c.toNat + 32 := by
  unfold lowChar
  rw [if_pos h]
  exact charOfNat_toNat _ (by omega)

theorem upChar_idem (c : Char) : upChar (upChar c) = upChar c := by
  by_cases h : 97 ≤ c.toNat ∧ c.toNat ≤ 122
  · apply upChar_eq_of_neg
    rw [toNat_upChar_pos h]
    omega
  · rw [upChar_eq_of_neg h, upChar_eq_of_neg h]

theorem lowChar_idem (c : Char) : lowChar (lowChar c) = lowChar c := by
  by_cases h : 65 ≤ c.toNat ∧ c.toNat ≤ 90
  · apply lowChar_eq_of_neg
    rw [toNat_lowChar_pos h]
    omega
  · rw [lowChar_eq_of_neg h, lowChar_eq_of_neg h]

theorem isSpaceB_upChar (c : Char) : isSpaceB (upChar c) = isSpaceB c := by
  by_cases h : 97 ≤ c.toNat ∧ c.toNat ≤ 122
  · unfold isSpaceB
    rw [toNat_upChar_pos h]
    exact decide_eq_decide.mpr (by omega)
  · rw [upChar_eq_of_neg h]

theorem isSpaceB_lowChar (c : Char) : isSpaceB (lowChar c) = isSpaceB c := by
  by_cases h : 65 ≤ c.toNat ∧ c.toNat ≤ 90
  · unfold isSpaceB
    rw [toNat_lowChar_pos h]
    exact decide_eq_decide.mpr (by omega)
  · rw [lowChar_eq_of_neg h]

theorem isAlphaB_upChar (c : Char) : isAlphaB (upChar c) = isAlphaB c := by
  by_cases h : 97 ≤ c.toNat ∧ c.toNat ≤ 122
  · unfold isAlphaB
    rw [toNat_upChar_pos h]
    exact decide_eq_decide.mpr (by omega)
  · rw [upChar_eq_of_neg h]

theorem isAlphaB_lowChar (c : Char) : isAlphaB (lowChar c) = isAlphaB c := by
  by_cases h : 65 ≤ c.toNat ∧ c.toNat ≤ 90
  · unfold isAlphaB
    rw [toNat_lowChar_pos h]
    exact decide_eq_decide.mpr (by omega)
  · rw [lowChar_eq_of_neg h]

/-! ## Whitespace-profile and stripping lemmas -/

theorem titleAux_map_ws : ∀ (b : Bool) (l : List Char),
    (titleAux b l).map isSpaceB = l.map isSpaceB := by
  intro b l
  induction l generalizing b with
  | nil => rfl
  | cons c cs ih =>
    by_cases ha : isAlphaB c
    · cases b with
      | false =>
        simp only [titleAux, ha, if_true, Bool.false_eq_true, if_false,
          List.map_cons, isSpaceB_upChar, ih true]
      | true =>
        simp only [titleAux, ha, if_true, List.map_cons, isSpaceB_lowChar, ih true]
    · simp only [titleAux, ha, Bool.false_eq_true, if_false, List.map_cons, ih false]

theorem titleAux_idem : ∀ (b : Bool) (l : List Char),
    titleAux b (titleAux b l) = titleAux b l := by
  intro b l
  induction l generalizing b with
  | nil => rfl
  | cons c cs ih =>
    by_cases ha : isAlphaB c
    · cases b with
      | false =>
        have ha' : isAlphaB (upChar c) = true := by rw [isAlphaB_upChar]; exact ha
        simp only [titleAux, ha, if_true, Bool.false_eq_true, if_false, ha',
          upChar_idem, ih true]
      | true =>
        have ha' : isAlphaB (lowChar c) = true := by rw [isAlphaB_lowChar]; exact ha
        simp only [titleAux, ha, if_true, ha', lowChar_idem, ih true]
    · have ha' : isAlphaB c = false := by simpa using ha
      simp only [titleAux, ha', Bool.false_eq_true, if_false, ih false]

theorem dropWhile_self_congr (m₁ m₂ : List Char)
    (h : m₁.map isSpaceB = m₂.map isSpaceB)
    (h₁ : m₁.dropWhile isSpaceB = m₁) : m₂.dropWhile isSpaceB = m₂ := by
  cases m₁ with
  | nil =>
    cases m₂ with
    | nil => rfl
    | cons b t => simp at h
  | cons a t =>
    cases m₂ with
    | nil => simp at h
    | cons b t₂ =>
      simp only [List.map_cons, List.cons.injEq] at h
      have ha : ¬ (isSpaceB a = true) :=
        List.dropWhile_eq_self_iff.mp h₁ (by simp)
      have hb : isSpaceB b = false := by
        rw [← h.1]
        simpa using ha
      simp [List.dropWhile_cons, hb]

theorem rdropWhile_eq_self_of_rev {m : List Char}
    (h : m.reverse.dropWhile isSpaceB = m.reverse) :
    List.rdropWhile isSpaceB m = m := by
  rw [List.rdropWhile, h, List.reverse_reverse]

theorem rev_dropWhile_eq_self_of_rdrop {m : List Char}
    (h : List.rdropWhile isSpaceB m = m) :
    m.reverse.dropWhile isSpaceB = m.reverse := by
  conv_rhs => rw [← h]
  rw [List.rdropWhile]
  rw [List.reverse_reverse]

theorem rdropWhile_self_congr (m₁ m₂ : List Char)
    (h : m₁.map isSpaceB = m₂.map isSpaceB)
    (h₁ : List.rdropWhile isSpaceB m₁ = m₁) :
    List.rdropWhile isSpaceB m₂ = m₂ := by
  apply rdropWhile_eq_self_of_rev
  apply dropWhile_self_congr m₁.reverse m₂.reverse
  · rw [List.map_reverse, List.map_reverse, h]
  · exact rev_dropWhile_eq_self_of_rdrop h₁

/-- The list-level content of stripStr. -/
theorem stripStr_data (s : String) :
    (stripStr s).data = List.rdropWhile isSpaceB (s.data.dropWhile isSpaceB) := rfl

theorem stripL_noLead (x : List Char) :
    (List.rdropWhile isSpaceB (x.dropWhile isSpaceB)).dropWhile isSpaceB
      = List.rdropWhile isSpaceB (x.dropWhile isSpaceB) := by
  set u := x.dropWhile isSpaceB with hu
  have hself : u.dropWhile isSpaceB = u := List.dropWhile_idempotent _ _
  obtain ⟨t, ht⟩ := List.rdropWhile_prefix isSpaceB u
  cases hc : List.rdropWhile isSpaceB u with
  | nil => rfl
  | cons a t₂ =>
    have hua : u = a :: (t₂ ++ t) := by
      rw [← ht, hc]
      rfl
    have ha : ¬ (isSpaceB a = true) := by
      have := List.dropWhile_eq_self_iff.mp hself
      rw [hua] at this
      exact by simpa using this (by simp)
    simp [List.dropWhile_cons, by simpa using ha]

theorem stripL_noTrail (x : List Char) :
    List.rdropWhile isSpaceB (List.rdropWhile isSpaceB (x.dropWhile isSpaceB))
      = List.rdropWhile isSpaceB (x.dropWhile isSpaceB) :=
  List.rdropWhile_idempotent _ _

/-- Stripping leaves a stripped-then-titlecased string unchanged:
str.strip is a no-op on the output of str.strip followed by str.title. -/
theorem strip_title_strip (s : String) :
    stripStr (titleStr (stripStr s)) = titleStr (stripStr s) := by
  apply congrArg String.mk
  rw [stripStr_data]
  show List.rdropWhile isSpaceB
      ((titleAux false (stripStr s).data).dropWhile isSpaceB)
    = titleAux false (stripStr s).data
  have hprof : (titleAux false (stripStr s).data).map isSpaceB
      = (stripStr s).data.map isSpaceB := titleAux_map_ws false _
  have h1 : (titleAux false (stripStr s).data).dropWhile isSpaceB
      = titleAux false (stripStr s).data := by
    apply dropWhile_self_congr (stripStr s).data _ hprof.symm
    rw [stripStr_data]
    exact stripL_noLead s.data
  rw [h1]
  apply rdropWhile_self_congr (stripStr s).data _ hprof.symm
  rw [stripStr_data]
  exact stripL_noTrail s.data

/-- Title-casing is idempotent. -/
theorem titleStr_idem (s : String) : titleStr (titleStr s) = titleStr s := by
  apply congrArg String.mk
  exact titleAux_idem false s.data

/-- The composite Name/Country normalisation of clean_data lines 177 and
214 (strip then title) is idempotent. -/
theorem title_strip_idem (s : String) :
    titleStr (stripStr (titleStr (stripStr s))) = titleStr (stripStr s) := by
  rw [strip_title_strip, titleStr_idem]

/-! ## Department normalisation lemmas -/

theorem removeWs_idem (s : String) :
    removeWsStr (removeWsStr s) = removeWsStr s := by
  apply congrArg String.mk
  show (s.data.filter (fun c => !isSpaceB c)).filter (fun c => !isSpaceB c)
    = s.data.filter (fun c => !isSpaceB c)
  rw [List.filter_filter]
  apply List.filter_congr
  intro a _
  rw [Bool.and_self]

theorem upper_idem (s : String) :
    upperStr (upperStr s) = upperStr s := by
  apply congrArg String.mk
  show (s.data.map upChar).map upChar = s.data.map upChar
  rw [List.map_map]
  have : upChar ∘ upChar = upChar := funext upChar_idem
  rw [this]

theorem removeWs_upper (s : String) :
    removeWsStr (upperStr s) = upperStr (removeWsStr s) := by
  apply congrArg String.mk
  show (s.data.map upChar).filter (fun c => !isSpaceB c)
    = (s.data.filter (fun c => !isSpaceB c)).map upChar
  rw [List.filter_map]
  congr 1
  apply List.filter_congr
  intro a _
  simp [Function.comp, isSpaceB_upChar]

/-- The composite Department pre-normalisation of lines 180-181: remove
all whitespace, then uppercase. -/
theorem deptNorm_idem (s : String) :
    upperStr (removeWsStr (upperStr (removeWsStr s)))
      = upperStr (removeWsStr s) := by
  rw [removeWs_upper, removeWs_idem, upper_idem]

theorem lookupStr_mem : ∀ (m : List (String × String)) (k v : String),
    lookupStr m k = some v → (k, v) ∈ m := by
  intro m
  induction m with
  | nil => intro k v h; exact absurd h (by simp [lookupStr])
  | cons p ps ih =>
    intro k v h
    unfold lookupStr at h
    by_cases hk : p.1 = k
    · rw [if_pos hk] at h
      injection h with hv
      apply List.mem_cons.mpr
      left
      cases p
      simp only [Prod.mk.injEq]
      exact ⟨hk.symm, hv.symm⟩
    · rw [if_neg hk] at h
      right
      exact ih k v h

/-- Every canonical label of the mapping is a fixed point of the whole
Department rule: re-normalising it and re-applying the map gives it
back.  In particular CUSTOMER SUPPORT survives because the
whitespace-free key CUSTOMERSUPPORT is itself in the map. -/
theorem canon_fixed_of_mem :
    ∀ p ∈ dept_mapping,
      canonApply (upperStr (removeWsStr p.2)) = p.2 := by decide

/-- One application of the Department rule (lines 180-210) is a fixed
point of a second application. -/
theorem dept_rule_idem (w : String) :
    canonApply (upperStr (removeWsStr (canonApply (upperStr (removeWsStr w)))))
      = canonApply (upperStr (removeWsStr w)) := by
  cases h : lookupStr dept_mapping (upperStr (removeWsStr w)) with
  | none =>
    have hc : canonApply (upperStr (removeWsStr w)) = upperStr (removeWsStr w) := by
      unfold canonApply
      rw [h]
      rfl
    rw [hc, deptNorm_idem]
    exact hc
  | some v =>
    have hc : canonApply (upperStr (removeWsStr w)) = v := by
      unfold canonApply
      rw [h]
      rfl
    rw [hc]
    exact canon_fixed_of_mem _ (lookupStr_mem _ _ _ h)

/-! ## Row-level lemmas -/

/-- Step 4 applied twice equals step 4 applied once, field by field. -/
theorem textNorm_idem (r : Row) : textNorm (textNorm r) = textNorm r := by
  cases r with
  | mk eid nm ag dp doj yoe cty sal pr =>
    simp only [textNorm, astypeStr]
    rw [title_strip_idem, dept_rule_idem, title_strip_idem]

/-- Step 1 is a no-op on a fully cleaned row. -/
theorem fillMissing_cleanRow (parse : String → Option Date) (r : Row) :
    fillMissing (cleanRow parse r) = cleanRow parse r := by
  cases r with
  | mk eid nm ag dp doj yoe cty sal pr =>
    simp [cleanRow, textNorm, fixDate, fillMissing, astypeStr]

/-- Step 2 is a no-op on a fully cleaned row.  The only dates a cleaned
row can carry are dates the parser itself produced and the epoch, so it
suffices that the parser re-accept the ISO rendering of its own output
(pd.to_datetime renders its Timestamps back to themselves) and of the
default 1900-01-01 (a plain ISO date pd.to_datetime accepts). -/
theorem fixDate_cleanRow (parse : String → Option Date)
    (hiso : ∀ s d, parse s = some d → parse (formatDate d) = some d)
    (hepoch : parse (formatDate epoch) = some epoch)
    (r : Row) :
    fixDate parse (cleanRow parse r) = cleanRow parse r := by
  have hD : parse (formatDate (dojDate parse r.Date_of_Joining))
      = some (dojDate parse r.Date_of_Joining) := by
    cases hdoj : r.Date_of_Joining with
    | none => exact hepoch
    | some s =>
      cases hp : parse s with
      | none =>
        show parse (formatDate ((parse s).getD epoch))
          = some ((parse s).getD epoch)
        rw [hp]
        exact hepoch
      | some d =>
        show parse (formatDate ((parse s).getD epoch))
          = some ((parse s).getD epoch)
        rw [hp]
        exact hiso s d hp
  cases r with
  | mk eid nm ag dp doj yoe cty sal pr =>
    have h2 : dojDate parse (some (formatDate (dojDate parse doj)))
        = dojDate parse doj := by
      show (parse (formatDate (dojDate parse doj))).getD epoch = dojDate parse doj
      rw [hD]
      rfl
    simp only [cleanRow, textNorm, fixDate, fillMissing] at h2 ⊢
    rw [h2]

/-! ## Deduplication lemmas -/

theorem mem_firstOccs : ∀ (l : List Row), ∀ x ∈ firstOccs l, x ∈ l := by
  intro l
  induction l using firstOccs.induct with
  | case1 => intro x hx; exact absurd hx (by simp [firstOccs])
  | case2 r rs ih =>
    intro x hx
    rw [firstOccs] at hx
    rcases List.mem_cons.mp hx with hx | hx
    · exact hx ▸ List.mem_cons_self _ _
    · exact List.mem_cons.mpr (Or.inr (List.mem_of_mem_filter (ih x hx)))

theorem dedupKeep_eq_firstOccs (l : List Row) : ∀ seen,
    dedupKeep seen l
      = firstOccs (l.filter (fun r => decide (r.Employee_ID ∉ seen))) := by
  induction l with
  | nil => intro seen; simp [dedupKeep, firstOccs]
  | cons r rs ih =>
    intro seen
    by_cases hm : r.Employee_ID ∈ seen
    · rw [show dedupKeep seen (r :: rs) = dedupKeep seen rs by
        simp [dedupKeep, hm]]
      rw [ih seen]
      congr 1
      simp [List.filter_cons, hm]
    · rw [show dedupKeep seen (r :: rs)
          = r :: dedupKeep (r.Employee_ID :: seen) rs by simp [dedupKeep, hm]]
      have hfc : (r :: rs).filter (fun x => decide (x.Employee_ID ∉ seen))
          = r :: rs.filter (fun x => decide (x.Employee_ID ∉ seen)) := by
        simp [List.filter_cons, hm]
      have hAB : (rs.filter (fun x => decide (x.Employee_ID ∉ seen))).filter
            (fun x => decide (x.Employee_ID ≠ r.Employee_ID))
          = rs.filter (fun x => decide (x.Employee_ID ∉ r.Employee_ID :: seen)) := by
        rw [List.filter_filter]
        apply List.filter_congr
        intro a _
        by_cases h1 : a.Employee_ID = r.Employee_ID
        · simp [h1]
        · by_cases h2 : a.Employee_ID ∈ seen
          · simp [h1, h2]
          · simp [h1, h2]
      rw [hfc, firstOccs, ih (r.Employee_ID :: seen), hAB]

theorem drop_duplicates_eq_firstOccs (l : List Row) :
    drop_duplicates l = firstOccs l := by
  unfold drop_duplicates
  rw [dedupKeep_eq_firstOccs]
  congr 1
  apply List.filter_eq_self.mpr
  intro a _
  simp

theorem pairwise_firstOccs : ∀ (l : List Row),
    (firstOccs l).Pairwise (fun a b => a.Employee_ID ≠ b.Employee_ID) := by
  intro l
  induction l using firstOccs.induct with
  | case1 => simp [firstOccs]
  | case2 r rs ih =>
    rw [firstOccs]
    apply List.pairwise_cons.mpr
    refine ⟨?_, ih⟩
    intro b hb
    have hbf := mem_firstOccs _ b hb
    have hp := List.of_mem_filter hbf
    intro hrb
    exact (of_decide_eq_true hp) hrb.symm

theorem firstOccs_eq_self_of_pairwise : ∀ (l : List Row),
    l.Pairwise (fun a b => a.Employee_ID ≠ b.Employee_ID) →
    firstOccs l = l := by
  intro l
  induction l with
  | nil => intro _; simp [firstOccs]
  | cons r rs ih =>
    intro hp
    obtain ⟨h1, h2⟩ := List.pairwise_cons.mp hp
    have hf : rs.filter (fun x => decide (x.Employee_ID ≠ r.Employee_ID)) = rs := by
      apply List.filter_eq_self.mpr
      intro a ha
      exact decide_eq_true ((h1 a ha).symm)
    rw [firstOccs, hf, ih h2]

theorem firstOccs_map (f : Row → Row)
    (hf : ∀ r, (f r).Employee_ID = r.Employee_ID) :
    ∀ (l : List Row), firstOccs (l.map f) = (firstOccs l).map f := by
  intro l
  induction l using firstOccs.induct with
  | case1 => simp [firstOccs]
  | case2 r rs ih =>
    rw [List.map_cons, firstOccs, firstOccs]
    rw [List.map_cons]
    congr 1
    rw [List.filter_map]
    have hpt : ((fun x => decide (x.Employee_ID ≠ (f r).Employee_ID)) ∘ f)
        = (fun x => decide (x.Employee_ID ≠ r.Employee_ID)) := by
      funext x
      simp only [Function.comp_apply, hf]
    rw [hpt, ← ih]

theorem firstOccs_filter_none : ∀ (l : List Row),
    (firstOccs l).filter (fun r => r.Employee_ID.isNone)
      = (l.filter (fun r => r.Employee_ID.isNone)).take 1 := by
  intro l
  induction l using firstOccs.induct with
  | case1 => simp [firstOccs]
  | case2 r rs ih =>
    rw [firstOccs]
    cases hid : r.Employee_ID with
    | none =>
      have hnone : (firstOccs (rs.filter
          (fun x => decide (x.Employee_ID ≠ (none : Option Int))))).filter
            (fun r => r.Employee_ID.isNone) = [] := by
        apply List.filter_eq_nil_iff.mpr
        intro a ha
        have haf := mem_firstOccs _ a ha
        have hp := List.of_mem_filter haf
        have hne := of_decide_eq_true hp
        intro hisn
        exact hne (Option.isNone_iff_eq_none.mp hisn)
      rw [List.filter_cons, List.filter_cons]
      simp only [hid, Option.isNone_none, hnone]
      simp
    | some k =>
      simp only [hid] at ih
      rw [List.filter_cons, List.filter_cons]
      simp only [hid, Option.isNone_some, Bool.false_eq_true, if_false]
      rw [ih]
      congr 1
      rw [List.filter_filter]
      apply List.filter_congr
      intro a _
      cases ha : a.Employee_ID with
      | none => simp
      | some m => simp

/-! ## Structure of clean_data -/

/-- clean_data is exactly: keep the first occurrence of every identifier
value, then apply the per-row cleaning transformation. -/
theorem clean_data_eq (parse : String → Option Date) (t : List Row) :
    clean_data parse t = (firstOccs t).map (cleanRow parse) := by
  unfold clean_data
  rw [drop_duplicates_eq_firstOccs, List.map_map]
  rw [firstOccs_map (fixDate parse ∘ fillMissing) (fun r => rfl)]
  rw [List.map_map]
  rfl

/-- Every output row of clean_data is the cleaning of some input row. -/
theorem mem_clean_data (parse : String → Option Date) (t : List Row) (r : Row)
    (h : r ∈ clean_data parse t) : ∃ r₀, r₀ ∈ t ∧ r = cleanRow parse r₀ := by
  rw [clean_data_eq] at h
  obtain ⟨r₀, hr₀, hEq⟩ := List.mem_map.mp h
  exact ⟨r₀, mem_firstOccs _ _ hr₀, hEq.symm⟩

/-- Identifier values of distinct output rows of clean_data differ. -/
theorem pairwise_clean_data (parse : String → Option Date) (t : List Row) :
    (clean_data parse t).Pairwise (fun a b => a.Employee_ID ≠ b.Employee_ID) := by
  rw [clean_data_eq]
  apply List.pairwise_map.mpr
  exact pairwise_firstOccs t

/-! ## Date-format lemmas -/

theorem isDigit_digitChar : ∀ k, k < 10 → (digitChar k).isDigit = true := by decide

theorem digitVal_digitChar : ∀ k, k < 10 → digitVal (digitChar k) = k := by decide

theorem isDigit_mod (n : Nat) : (digitChar (n % 10)).isDigit = true :=
  isDigit_digitChar _ (Nat.mod_lt _ (by omega))

theorem matchesISO_formatDate (d : Date) : matchesISO (formatDate d) = true := by
  show (matchesISO ⟨[digitChar (d.year / 1000 % 10), digitChar (d.year / 100 % 10),
    digitChar (d.year / 10 % 10), digitChar (d.year % 10), '-',
    digitChar (d.month / 10 % 10), digitChar (d.month % 10), '-',
    digitChar (d.day / 10 % 10), digitChar (d.day % 10)]⟩) = true
  unfold matchesISO
  simp [isDigit_mod]

theorem formatDate_epoch : formatDate epoch = "1900-01-01" := by decide

/-! ## parseISO satisfies the parser interface -/

/-- parseISO only produces plausible dates. -/
theorem parseISO_valid (s : String) (d : Date) (h : parseISO s = some d) :
    validDate d = true := by
  unfold parseISO at h
  split at h
  · split at h
    · split at h
      · injection h with h'
        subst h'
        assumption
      · exact absurd h (by simp)
    · exact absurd h (by simp)
  · exact absurd h (by simp)

theorem digits_recompose (y : Nat) (hy : y ≤ 9999) :
    1000 * (y / 1000 % 10) + 100 * (y / 100 % 10) + 10 * (y / 10 % 10) + y % 10 = y := by
  omega

theorem digits_recompose2 (m : Nat) (hm : m ≤ 99) :
    10 * (m / 10 % 10) + m % 10 = m := by
  omega

/-- parseISO accepts the strftime rendering of every plausible date. -/
theorem parseISO_formatDate (d : Date) (hv : validDate d = true) :
    parseISO (formatDate d) = some d := by
  obtain ⟨y, m, dd⟩ := d
  obtain ⟨h1, h2, h3, h4, h5, h6⟩ := of_decide_eq_true hv
  dsimp only at h1 h2 h3 h4 h5 h6
  show parseISO ⟨[digitChar (y / 1000 % 10), digitChar (y / 100 % 10),
    digitChar (y / 10 % 10), digitChar (y % 10), '-',
    digitChar (m / 10 % 10), digitChar (m % 10), '-',
    digitChar (dd / 10 % 10), digitChar (dd % 10)]⟩ = some ⟨y, m, dd⟩
  unfold parseISO
  dsimp only
  rw [if_pos (by simp [isDigit_mod])]
  have hm : ∀ n : Nat, digitVal (digitChar (n % 10)) = n % 10 :=
    fun n => digitVal_digitChar _ (Nat.mod_lt _ (by omega))
  simp only [hm]
  rw [digits_recompose y (by omega), digits_recompose2 m (by omega),
    digits_recompose2 dd (by omega)]
  rw [if_pos hv]

/-- parseISO re-accepts the rendering of any date it produced. -/
theorem parseISO_round (s : String) (d : Date) (h : parseISO s = some d) :
    parseISO (formatDate d) = some d :=
  parseISO_formatDate d (parseISO_valid s d h)

/-- parseISO accepts the rendering of the fixed default date. -/
theorem parseISO_epoch : parseISO (formatDate epoch) = some epoch :=
  parseISO_formatDate epoch (by decide)
/-! ## Claim theorems -/

/-- C6 — Normalization is idempotent: applying clean_data twice yields
the same table as applying it once, for every input table and every
parser that re-accepts the ISO rendering of any date it itself produced
and of the fixed default 1900-01-01.  Both hypotheses hold of
pd.to_datetime with errors coerced: a parsed Timestamp rendered as
YYYY-MM-DD parses back to itself, and the literal 1900-01-01 parses. -/
theorem clean_data_idempotent (parse : String → Option Date)
    (hiso : ∀ s d, parse s = some d → parse (formatDate d) = some d)
    (hepoch : parse (formatDate epoch) = some epoch)
    (t : List Row) :
    clean_data parse (clean_data parse t) = clean_data parse t := by
  have hmem : ∀ x ∈ clean_data parse t, ∃ r₀, x = cleanRow parse r₀ := by
    intro x hx
    obtain ⟨r₀, _, hEq⟩ := mem_clean_data parse t x hx
    exact ⟨r₀, hEq⟩
  have h1 : (clean_data parse t).map fillMissing = clean_data parse t := by
    have hc : (clean_data parse t).map fillMissing = (clean_data parse t).map id :=
      List.map_congr_left (fun a ha => by
        obtain ⟨r₀, rfl⟩ := hmem a ha
        exact fillMissing_cleanRow parse r₀)
    rw [hc, List.map_id]
  have h2 : (clean_data parse t).map (fixDate parse) = clean_data parse t := by
    have hc : (clean_data parse t).map (fixDate parse) = (clean_data parse t).map id :=
      List.map_congr_left (fun a ha => by
        obtain ⟨r₀, rfl⟩ := hmem a ha
        exact fixDate_cleanRow parse hiso hepoch r₀)
    rw [hc, List.map_id]
  have h3 : (clean_data parse t).map textNorm = clean_data parse t := by
    have hc : (clean_data parse t).map textNorm = (clean_data parse t).map id :=
      List.map_congr_left (fun a ha => by
        obtain ⟨r₀, rfl⟩ := hmem a ha
        exact textNorm_idem (fixDate parse (fillMissing r₀)))
    rw [hc, List.map_id]
  have h4 : drop_duplicates (clean_data parse t) = clean_data parse t := by
    rw [drop_duplicates_eq_firstOccs]
    exact firstOccs_eq_self_of_pairwise _ (pairwise_clean_data parse t)
  conv_lhs => rw [clean_data]
  rw [h1, h2, h4, h3]


/-- Witness for C6 at a concrete parser and table. -/
theorem clean_data_idempotent_witness :
    clean_data parseISO (clean_data parseISO exTable) = clean_data parseISO exTable :=
  clean_data_idempotent parseISO parseISO_round parseISO_epoch exTable

/-- C2 — clean_data output has pairwise distinct identifier values, and
equals the first occurrences of the input (grouped by the identifier
column alone, first row in original order kept, later rows discarded)
with the per-row cleaning applied. -/
theorem clean_data_unique_first (parse : String → Option Date) (t : List Row) :
    (clean_data parse t).Pairwise (fun a b => a.Employee_ID ≠ b.Employee_ID) ∧
    clean_data parse t = (firstOccs t).map (cleanRow parse) :=
  ⟨pairwise_clean_data parse t, clean_data_eq parse t⟩

/-- C10 — rows with a missing identifier are duplicates of one another:
the cleaned output contains exactly the cleaning of the first such input
row (and nothing else with a missing identifier), every later
identifier-less row being discarded. -/
theorem clean_data_null_ids_first (parse : String → Option Date) (t : List Row) :
    (clean_data parse t).filter (fun r => r.Employee_ID.isNone)
      = ((t.filter (fun r => r.Employee_ID.isNone)).take 1).map (cleanRow parse) := by
  rw [clean_data_eq, List.filter_map]
  have hp : ((fun r : Row => r.Employee_ID.isNone) ∘ cleanRow parse)
      = (fun r : Row => r.Employee_ID.isNone) := funext (fun r => rfl)
  rw [hp, firstOccs_filter_none]

/-- C3 — every Date_of_Joining in the output of clean_data is a present
string in YYYY-MM-DD form, and is either the literal default 1900-01-01
or the ISO rendering of that row's original, parseable date value. -/
theorem clean_data_date_totality (parse : String → Option Date) (t : List Row) :
    ∀ r ∈ clean_data parse t, ∃ r₀, r₀ ∈ t ∧ r = cleanRow parse r₀ ∧
      ∃ s, r.Date_of_Joining = some s ∧ matchesISO s = true ∧
        (s = "1900-01-01" ∨
          ∃ orig dte, r₀.Date_of_Joining = some orig ∧ parse orig = some dte ∧
            s = formatDate dte) := by
  intro r hr
  obtain ⟨r₀, hmem, rfl⟩ := mem_clean_data parse t r hr
  refine ⟨r₀, hmem, rfl, formatDate (dojDate parse r₀.Date_of_Joining), rfl,
    matchesISO_formatDate _, ?_⟩
  cases hdoj : r₀.Date_of_Joining with
  | none =>
    left
    exact formatDate_epoch
  | some orig =>
    cases hp : parse orig with
    | none =>
      left
      show formatDate ((parse orig).getD epoch) = "1900-01-01"
      rw [hp]
      exact formatDate_epoch
    | some dte =>
      right
      refine ⟨orig, dte, rfl, hp, ?_⟩
      show formatDate ((parse orig).getD epoch) = formatDate dte
      rw [hp]
      rfl

/-- Witness for C3: a single-row table with a missing date. -/
theorem clean_data_date_totality_witness :
    ∃ r₀, r₀ ∈ [exRowNulls] ∧ cleanRow parseISO exRowNulls = cleanRow parseISO r₀ ∧
      ∃ s, (cleanRow parseISO exRowNulls).Date_of_Joining = some s ∧
        matchesISO s = true ∧
        (s = "1900-01-01" ∨
          ∃ orig dte, r₀.Date_of_Joining = some orig ∧ parseISO orig = some dte ∧
            s = formatDate dte) :=
  clean_data_date_totality parseISO [exRowNulls] (cleanRow parseISO exRowNulls)
    (by decide)

/-- C4 — for a present Department value, clean_data reduces it to the
whitespace-free uppercase form; a value whose reduced form is a key of
dept_mapping becomes exactly the mapped canonical label, any other value
passes through in reduced form unchanged. -/
theorem clean_data_department_mapping (parse : String → Option Date) (t : List Row) :
    (∀ r ∈ clean_data parse t, ∃ r₀, r₀ ∈ t ∧ r = cleanRow parse r₀) ∧
    ∀ r₀ s, r₀.Department = some s →
      (∀ v, lookupStr dept_mapping (upperStr (removeWsStr s)) = some v →
        (cleanRow parse r₀).Department = some v) ∧
      (lookupStr dept_mapping (upperStr (removeWsStr s)) = none →
        (cleanRow parse r₀).Department = some (upperStr (removeWsStr s))) := by
  constructor
  · exact fun r hr => mem_clean_data parse t r hr
  · intro r₀ s h
    have hd : (cleanRow parse r₀).Department
        = some (canonApply (upperStr (removeWsStr s))) := by
      show some (canonApply (upperStr (removeWsStr (astypeStr r₀.Department))))
        = some (canonApply (upperStr (removeWsStr s)))
      rw [h]
      rfl
    constructor
    · intro v hv
      rw [hd]
      unfold canonApply
      rw [hv]
      rfl
    · intro hnone
      rw [hd]
      unfold canonApply
      rw [hnone]
      rfl

/-- Witness for C4: the misspelt department oprations (with edge
whitespace) maps to OPERATIONS. -/
theorem clean_data_department_mapping_witness :
    (cleanRow parseISO exRowFull).Department = some "OPERATIONS" := by
  have h := (clean_data_department_mapping parseISO [exRowFull]).2
    exRowFull " oprations " (by decide)
  exact h.1 "OPERATIONS" (by decide)

/-- C5 — a row with missing Name, Performance_Rating, Country and
Years_of_Experience is cleaned to Unknown, Unknown, Unknown and -1. -/
theorem clean_data_missing_defaults (parse : String → Option Date) (t : List Row) :
    (∀ r ∈ clean_data parse t, ∃ r₀, r₀ ∈ t ∧ r = cleanRow parse r₀) ∧
    ∀ r₀, r₀.Name = none → r₀.Performance_Rating = none → r₀.Country = none →
      r₀.Years_of_Experience = none →
      (cleanRow parse r₀).Name = some "Unknown" ∧
      (cleanRow parse r₀).Performance_Rating = some "Unknown" ∧
      (cleanRow parse r₀).Country = some "Unknown" ∧
      (cleanRow parse r₀).Years_of_Experience = some (-1) := by
  constructor
  · exact fun r hr => mem_clean_data parse t r hr
  · intro r₀ h1 h2 h3 h4
    refine ⟨?_, ?_, ?_, ?_⟩
    · show some (titleStr (stripStr (astypeStr (some (r₀.Name.getD "Unknown")))))
        = some "Unknown"
      rw [h1]
      decide
    · show some (r₀.Performance_Rating.getD "Unknown") = some "Unknown"
      rw [h2]
      rfl
    · show some (titleStr (stripStr (astypeStr (some (r₀.Country.getD "Unknown")))))
        = some "Unknown"
      rw [h3]
      decide
    · show some (r₀.Years_of_Experience.getD (-1)) = some (-1)
      rw [h4]
      rfl

/-- Witness for C5 at a concrete all-null row. -/
theorem clean_data_missing_defaults_witness :
    (cleanRow parseISO exRowNulls).Name = some "Unknown" ∧
    (cleanRow parseISO exRowNulls).Performance_Rating = some "Unknown" ∧
    (cleanRow parseISO exRowNulls).Country = some "Unknown" ∧
    (cleanRow parseISO exRowNulls).Years_of_Experience = some (-1) :=
  (clean_data_missing_defaults parseISO [exRowNulls]).2 exRowNulls rfl rfl rfl rfl

/-- C8 (counterexample) — the claim that a missing input Department
stays missing in the output of clean_data is false: on a concrete
single-row table whose Department is none, the output Department is not
none. -/
theorem clean_data_null_department_cex :
    ¬ (∀ r ∈ clean_data parseISO [exRowNullDept], r.Department = none) := by
  decide

/-- C8 (amended) — a missing Department does not survive as null:
astype(str) renders the missing value as the string None, whitespace
removal leaves it, uppercasing gives NONE, which is not a key of
dept_mapping and therefore passes through, so the output Department is
the literal string NONE. -/
theorem clean_data_null_department (parse : String → Option Date) (t : List Row) :
    (∀ r ∈ clean_data parse t, ∃ r₀, r₀ ∈ t ∧ r = cleanRow parse r₀) ∧
    ∀ r₀, r₀.Department = none → (cleanRow parse r₀).Department = some "NONE" := by
  constructor
  · exact fun r hr => mem_clean_data parse t r hr
  · intro r₀ h
    show some (canonApply (upperStr (removeWsStr (astypeStr r₀.Department))))
      = some "NONE"
    rw [h]
    decide

/-- Witness for the amended C8 at a concrete row. -/
theorem clean_data_null_department_witness :
    (cleanRow parseISO exRowNullDept).Department = some "NONE" :=
  (clean_data_null_department parseISO [exRowNullDept]).2 exRowNullDept rfl

/-- C7 (counterexample) — the claim that clean_data returns exactly the
Canonical Record columns is false: on the staging column list (which is
what load_data_from_db hands over, SELECT * including the surrogate id)
the output columns are not the canonical nine. -/
theorem clean_data_cols_cex : clean_data_cols stagingCols ≠ canonicalCols := by
  decide

/-- C7 (amended) — clean_data preserves the staging column list
unchanged, surrogate id first and included; the projection to the
Canonical Record schema happens only inside
load_clean_data_to_final_table, whose explicit column selection equals
the canonical order exactly. -/
theorem clean_data_cols_staging :
    clean_data_cols stagingCols = stagingCols ∧
    stagingCols = "id" :: canonicalCols ∧
    final_select_cols (clean_data_cols stagingCols) = canonicalCols := by
  refine ⟨by decide, by decide, by decide⟩

/-- C9 — profile_data does not mutate its argument: on any table that
does not already carry the working column Parsed_Date (a raw extract
never does), adding the parsed-date column and dropping it again returns
exactly the original columns and values. -/
theorem profile_data_no_mutation {α : Type} (t : List (String × List α))
    (pv : List α) (h : "Parsed_Date" ∉ t.map Prod.fst) :
    profile_data t pv = t := by
  unfold profile_data setColTable dropColTable
  have hany : t.any (fun p => decide (p.1 = "Parsed_Date")) = false := by
    rw [List.any_eq_false]
    intro p hp
    simp only [decide_eq_true_eq]
    intro heq
    exact h (List.mem_map.mpr ⟨p, hp, heq⟩)
  rw [if_neg (by rw [hany]; simp)]
  rw [List.filter_append]
  have h1 : t.filter (fun p => decide (p.1 ≠ "Parsed_Date")) = t := by
    apply List.filter_eq_self.mpr
    intro p hp
    simp only [decide_eq_true_eq]
    intro heq
    exact h (List.mem_map.mpr ⟨p, hp, heq⟩)
  rw [h1]
  simp


/-- Witness for C9 at a concrete table and parsed-date values. -/
theorem profile_data_no_mutation_witness :
    profile_data exColsTable [5, 6] = exColsTable :=
  profile_data_no_mutation exColsTable [5, 6] (by decide)

/-- C1 (counterexample) — the claim that a duplicate-key failure of the
canonical bulk insert propagates to the caller is false: the except arm
of load_clean_data_to_final_table catches it, so no exception leaves the
insert step even for a duplicate primary-key error. -/
theorem insert_clean_dup_key_not_raised :
    (insert_clean_step
      (Except.error "Duplicate entry 1 for key employee_data.PRIMARY")).raised
      = none := rfl

/-- C1 (amended) — on any insert failure, duplicate-key violations
included, load_clean_data_to_final_table prints a diagnostic naming the
error, skips the commit of the batch, and propagates nothing to the
caller (it falls through to validation and export). -/
theorem insert_clean_error_caught (e : String) :
    insert_clean_step (Except.error e)
      = ⟨false, "An error occurred when inserting clean data: " ++ e, none⟩ := rfl
